import Mathlib

/-!
Verification development for the jwt-pizza-service authentication and
authorization core. The JavaScript implementation files
(src/database/database.js, src/routes/authRouter.js, src/routes/userRouter.js,
src/routes/franchiseRouter.js) are not present in the repository snapshot;
only their tests, a function summary document, and a jest mock of
getTokenSignature and getOffset are. The definitions below are therefore
modelled from the specification (spec.md sections 4.1 to 4.5, 5 and 6) and the
in-repository function summary, faithful to their words.
-/

/-- A JavaScript string, modelled as a list of characters. -/
abbrev Str := List Char

/-- Modelled from the spec: the closed role set of src/model/model.js,
RoleEnum = \x7bDiner, Franchisee, Admin\x7d. -/
inductive Role where
  | Diner
  | Franchisee
  | Admin
  deriving DecidableEq

/-- Modelled from the spec: the split of a string on the dot character,
mirroring the JavaScript token.split per the jest mock of getTokenSignature
in the repository tests. The empty string splits to a single empty segment,
as in JavaScript. -/
def splitDot : Str → List Str
  | [] => [[]]
  | c :: rest =>
    match splitDot rest with
    | [] => [[]]
    | seg :: segs => if c = '.' then [] :: seg :: segs else (c :: seg) :: segs

/-- Modelled from the spec: DB.getTokenSignature of the missing
src/database/database.js. It returns the third dot-separated segment of the
token when there are more than two segments, and the empty string otherwise,
matching the jest mock in the repository tests: the segment list of the token,
then segment index 2 when the list length exceeds 2, else the empty string. -/
def getTokenSignature (t : Str) : Str :=
  let parts := splitDot t
  if 2 < parts.length then parts.getD 2 [] else []

/-- True when the string contains no dot character, so it forms a single
segment of a token. -/
def noDot (s : Str) : Bool :=
  s.all (fun c => decide (c ≠ '.'))

/-- The auth table of the Credential Store: rows mapping a token signature to
the owning user id. -/
abbrev AuthState := List (Str × Nat)

/-- Modelled from the spec: DB.isLoggedIn of the missing
src/database/database.js checks the auth table for the token signature and
returns a boolean. -/
def isLoggedIn (store : AuthState) (tok : Str) : Bool :=
  store.any (fun row => decide (row.1 = getTokenSignature tok))

/-- Modelled from the spec: DB.loginUser of the missing
src/database/database.js stores the token signature into the auth table with
insert-or-update-on-duplicate-key semantics: when a row with the signature
exists its userId is overwritten, otherwise a new row is inserted. -/
def loginUser (store : AuthState) (userId : Nat) (tok : Str) : AuthState :=
  let sig := getTokenSignature tok
  if store.any (fun row => decide (row.1 = sig)) then
    store.map (fun row => if row.1 = sig then (row.1, userId) else row)
  else
    (sig, userId) :: store

/-- Modelled from the spec: DB.logoutUser of the missing
src/database/database.js deletes the auth row keyed by the token signature. -/
def logoutUser (store : AuthState) (tok : Str) : AuthState :=
  store.filter (fun row => decide (row.1 ≠ getTokenSignature tok))

/-- Number of auth rows carrying the given signature. The relational store
enforces at most one row per signature (primary key). -/
def countSig (store : AuthState) (sig : Str) : Nat :=
  store.countP (fun row => decide (row.1 = sig))

/-- Modelled from the spec: the request principal derived from verified token
claims, carrying the user id and role assignments. -/
structure Principal where
  id : Nat
  roles : List Role
  deriving DecidableEq

/-- Modelled from the spec: the role-check capability attached to the
principal, true exactly when the role is among the role assignments. -/
def hasRole (p : Principal) (r : Role) : Bool :=
  p.roles.any (fun x => decide (x = r))

/-- Modelled from the spec: the setAuthUser middleware of the missing
src/routes/authRouter.js. The bearer token is an optional value (absence
means no Authorization header). The Token Service verify capability is a
parameter returning either the principal claims or an invalid-signature
error. The middleware attaches a principal only when the token is present,
its signature is active in the Credential Store, and verification succeeds;
in every other case it yields no principal and the request continues. Its
result type has no error outcome: verification errors are caught and mapped
to the absent principal. -/
def setAuthUser (verify : Str → Except Str Principal) (store : AuthState)
    (tok : Option Str) : Option Principal :=
  match tok with
  | none => none
  | some t =>
    if isLoggedIn store t then
      match verify t with
      | Except.ok p => some p
      | Except.error _ => none
    else none

/-- Modelled from the spec: the authenticateToken gate of the missing
src/routes/authRouter.js, invoked by protected routes; it fails with status
401 when no principal is attached and otherwise passes the principal on. -/
def authenticateToken (u : Option Principal) : Except Nat Principal :=
  match u with
  | none => Except.error 401
  | some p => Except.ok p

/-- Modelled from the spec: a persisted user row of the missing
src/database/database.js, holding the password hash, never the plaintext. -/
structure StoredUser where
  id : Nat
  name : Str
  email : Str
  passwordHash : Str
  roles : List Role
  deriving DecidableEq

/-- The single error value produced by DB.getUser on any login failure:
status 404 with message unknown user. -/
def unknownUserError : Nat × String := (404, "unknown user")

/-- Modelled from the spec: DB.getUser of the missing
src/database/database.js. The one-way hash comparison capability is a
parameter. The user row is fetched by email; a missing row, or a failing
password comparison against the stored hash, each raise the same
StatusCodeError with status 404 and message unknown user. -/
def getUser (compare : Str → Str → Bool) (users : List StoredUser)
    (email pw : Str) : Except (Nat × String) StoredUser :=
  match users.find? (fun u => decide (u.email = email)) with
  | none => Except.error unknownUserError
  | some u =>
    if compare pw u.passwordHash then Except.ok u
    else Except.error unknownUserError

/-- Modelled from the spec: the self-or-admin Permission Policy, true exactly
when the principal id equals the target user id or the principal has the
Admin role. -/
def isSelfOrAdmin (p : Principal) (targetUserId : Nat) : Bool :=
  decide (p.id = targetUserId) || hasRole p Role.Admin

/-- Modelled from the spec: DB.updateUser of the missing
src/database/database.js, updating the name, email and hashed password of the
row with the given user id. The hash capability is a parameter. -/
def updateUser (hash : Str → Str) (users : List StoredUser) (userId : Nat)
    (name email pw : Str) : List StoredUser :=
  users.map (fun u =>
    if u.id = userId then StoredUser.mk u.id name email (hash pw) u.roles
    else u)

/-- Modelled from the spec: the PUT user route handler of the missing
src/routes/userRouter.js. After the authentication gate, the handler checks
the self-or-admin policy; on failure it responds with status 403 and the
message unauthorized and performs no update; on success it applies
DB.updateUser. The pair carries the response and the resulting user table. -/
def updateUserRoute (hash : Str → Str) (p : Principal) (targetUserId : Nat)
    (users : List StoredUser) (name email pw : Str) :
    Except (Nat × String) Unit × List StoredUser :=
  if isSelfOrAdmin p targetUserId then
    (Except.ok (), updateUser hash users targetUserId name email pw)
  else
    (Except.error (403, "unauthorized"), users)

/-- Modelled from the spec: a role-assignment row of the userRole table,
whose objectId ties a Franchisee assignment to its franchise. -/
structure RoleRow where
  userId : Nat
  role : Role
  objectId : Nat
  deriving DecidableEq

/-- Modelled from the spec: the franchise-related tables touched by
DB.deleteFranchise — franchise rows by id, store rows as pairs of store id
and owning franchise id, and role-assignment rows. -/
structure FranchiseDB where
  franchises : List Nat
  stores : List (Nat × Nat)
  userRoles : List RoleRow
  deriving DecidableEq

/-- The three delete statements of the DB.deleteFranchise transaction, in
execution order; an injected failure names the statement that fails. -/
inductive TxStep where
  | deleteStores
  | deleteRoles
  | deleteFranchiseRow
  deriving DecidableEq

/-- The single error surfaced by DB.deleteFranchise on any transactional
failure: status 500 with message unable to delete franchise. -/
def unableToDeleteFranchiseError : Nat × String :=
  (500, "unable to delete franchise")

/-- First transaction statement: delete the store rows of the franchise. -/
def txDeleteStores (db : FranchiseDB) (fid : Nat) : FranchiseDB :=
  FranchiseDB.mk db.franchises (db.stores.filter (fun s => decide (s.2 ≠ fid)))
    db.userRoles

/-- Second transaction statement: delete the role-assignment rows whose
objectId is the franchise. -/
def txDeleteRoles (db : FranchiseDB) (fid : Nat) : FranchiseDB :=
  FranchiseDB.mk db.franchises db.stores
    (db.userRoles.filter (fun r => decide (r.objectId ≠ fid)))

/-- Third transaction statement: delete the franchise row itself. -/
def txDeleteFranchiseRow (db : FranchiseDB) (fid : Nat) : FranchiseDB :=
  FranchiseDB.mk (db.franchises.filter (fun f => decide (f ≠ fid))) db.stores
    db.userRoles

/-- Modelled from the spec: DB.deleteFranchise of the missing
src/database/database.js. The three deletes run inside one transaction; a
failure at any statement rolls the whole transaction back (the error result
carries no state, and the caller keeps the original state) and surfaces the
single InternalError with status 500 and message unable to delete
franchise. -/
def deleteFranchise (fail : Option TxStep) (db : FranchiseDB) (fid : Nat) :
    Except (Nat × String) FranchiseDB :=
  if fail = some TxStep.deleteStores then
    Except.error unableToDeleteFranchiseError
  else
    let db1 := txDeleteStores db fid
    if fail = some TxStep.deleteRoles then
      Except.error unableToDeleteFranchiseError
    else
      let db2 := txDeleteRoles db1 fid
      if fail = some TxStep.deleteFranchiseRow then
        Except.error unableToDeleteFranchiseError
      else Except.ok (txDeleteFranchiseRow db2 fid)

/-- Modelled from the spec: the DELETE franchise route handler of the missing
src/routes/franchiseRouter.js. It enforces no authentication and no
permission check — the requester, possibly carrying no principal at all, is
ignored — and calls DB.deleteFranchise, answering status 200 with message
franchise deleted on success; a transactional failure propagates and leaves
the state unchanged. -/
def deleteFranchiseRoute (_user : Option Principal) (fail : Option TxStep)
    (db : FranchiseDB) (fid : Nat) :
    Except (Nat × String) (Nat × String) × FranchiseDB :=
  match deleteFranchise fail db fid with
  | Except.ok db2 => (Except.ok (200, "franchise deleted"), db2)
  | Except.error e => (Except.error e, db)

/-- Modelled from the spec: the JavaScript string rendering of a number, as a
list of decimal digit values, most significant first; zero renders as the
single digit zero. -/
def jsNumberToDigits (n : Nat) : List Nat :=
  if n = 0 then [0] else (Nat.digits 10 n).reverse

/-- Modelled from the spec: the JavaScript numeric reading of a decimal digit
string, folding digits left to right. -/
def jsDigitsToNumber (ds : List Nat) : Nat :=
  ds.foldl (fun acc d => acc * 10 + d) 0

/-- Modelled from the spec: the JavaScript coercion of a single-element array
of a number to a number — the array converts to its joined string rendering,
which the numeric context then reads back. -/
def jsSingletonArrayToNumber (n : Nat) : Nat :=
  jsDigitsToNumber (jsNumberToDigits n)

/-- Modelled from the spec: DB.getOffset of the missing
src/database/database.js, which computes the page offset by multiplying the
zero-based page number by a single-element array literal holding the
per-page limit, relying on the JavaScript array-to-number coercion. -/
def getOffset (currentPage listPerPage : Nat) : Nat :=
  (currentPage - 1) * jsSingletonArrayToNumber listPerPage

theorem splitDot_ne_nil (s : Str) : splitDot s ≠ [] := by
  cases s with
  | nil => simp [splitDot]
  | cons c rest =>
    simp only [splitDot]
    cases splitDot rest with
    | nil => simp
    | cons seg segs => by_cases hc : c = '.' <;> simp [hc]

theorem noDot_cons (c : Char) (s : Str) :
    noDot (c :: s) = true ↔ c ≠ '.' ∧ noDot s = true := by
  simp [noDot, List.all_cons]

theorem splitDot_noDot (s : Str) (h : noDot s = true) : splitDot s = [s] := by
  induction s with
  | nil => rfl
  | cons c rest ih =>
    rw [noDot_cons] at h
    simp only [splitDot, ih h.2]
    simp [h.1]

theorem splitDot_append_dot (a rest : Str) (h : noDot a = true) :
    splitDot (a ++ '.' :: rest) = a :: splitDot rest := by
  induction a with
  | nil =>
    simp only [List.nil_append, splitDot]
    cases hs : splitDot rest with
    | nil => exact absurd hs (splitDot_ne_nil rest)
    | cons seg segs => simp
  | cons c a ih =>
    rw [noDot_cons] at h
    rw [List.cons_append]
    conv_lhs => rw [splitDot]
    rw [ih h.2]
    simp [h.1]

/-- C9: for every string token, getTokenSignature returns the third
dot-separated segment when the token has at least three segments — the
second conjunct states this for every segment count, and the third conjunct
restates it for every token shaped as two dot-free segments followed by an
arbitrary remainder, whose third segment is the first segment of the
remainder — and returns the empty string when it has fewer than three; it is
a total function (it never throws), so a malformed token is treated as
having no signature. -/
theorem getTokenSignature_total_spec :
    (∀ t : Str, (splitDot t).length < 3 → getTokenSignature t = []) ∧
    (∀ t : Str, 2 < (splitDot t).length →
      getTokenSignature t = (splitDot t).getD 2 []) ∧
    (∀ a b rest : Str, noDot a = true → noDot b = true →
      getTokenSignature (a ++ '.' :: (b ++ '.' :: rest)) =
        (splitDot rest).getD 0 []) := by
  refine ⟨?_, ?_, ?_⟩
  · intro t h
    unfold getTokenSignature
    rw [if_neg (by omega)]
  · intro t h
    unfold getTokenSignature
    rw [if_pos h]
  · intro a b rest ha hb
    unfold getTokenSignature
    rw [splitDot_append_dot a _ ha, splitDot_append_dot b _ hb]
    have hlen : 0 < (splitDot rest).length :=
      List.length_pos.mpr (splitDot_ne_nil rest)
    rw [if_pos (by simp; omega)]
    cases hsp : splitDot rest with
    | nil => exact absurd hsp (splitDot_ne_nil rest)
    | cons seg segs => rfl

theorem getTokenSignature_total_spec_witness :
    getTokenSignature (['a'] ++ '.' :: (['b'] ++ '.' :: ['c', '.', 'd'])) =
      (splitDot ['c', '.', 'd']).getD 0 [] :=
  getTokenSignature_total_spec.2.2 ['a'] ['b'] ['c', '.', 'd'] (by decide)
    (by decide)

/-- C1: a token authorizes a request (a principal is attached by setAuthUser)
only if its signature is active in the Credential Store and the Token Service
verification succeeds; a token failing either condition yields an
unauthenticated request. -/
theorem token_validity_invariant :
    (∀ (verify : Str → Except Str Principal) (store : AuthState)
        (tok : Option Str) (p : Principal),
      setAuthUser verify store tok = some p →
        ∃ t, tok = some t ∧ isLoggedIn store t = true ∧
          verify t = Except.ok p) ∧
    (∀ (verify : Str → Except Str Principal) (store : AuthState) (t : Str),
      (∃ e, verify t = Except.error e) ∨ isLoggedIn store t = false →
        setAuthUser verify store (some t) = none) := by
  constructor
  · intro verify store tok p h
    cases tok with
    | none => simp [setAuthUser] at h
    | some t =>
      refine ⟨t, rfl, ?_⟩
      simp only [setAuthUser] at h
      by_cases hl : isLoggedIn store t = true
      · rw [if_pos hl] at h
        cases hv : verify t with
        | ok q => rw [hv] at h; cases h; exact ⟨hl, rfl⟩
        | error e => rw [hv] at h; cases h
      · rw [if_neg hl] at h
        cases h
  · intro verify store t h
    unfold setAuthUser
    rcases h with ⟨e, he⟩ | hl
    · by_cases hl : isLoggedIn store t = true <;> simp [hl, he]
    · simp [hl]

theorem token_validity_invariant_witness :
    setAuthUser (fun _ => Except.error ['b']) [] (some ['x']) = none :=
  token_validity_invariant.2 (fun _ => Except.error ['b']) [] ['x']
    (Or.inl ⟨['b'], rfl⟩)

theorem isLoggedIn_logoutUser (store : AuthState) (t : Str) :
    isLoggedIn (logoutUser store t) t = false := by
  rw [Bool.eq_false_iff]
  intro h
  unfold isLoggedIn logoutUser at h
  rw [List.any_eq_true] at h
  obtain ⟨row, hmem, hrow⟩ := h
  rw [List.mem_filter] at hmem
  exact (of_decide_eq_true hmem.2) (of_decide_eq_true hrow)

/-- C2: for every token, after logoutUser deletes its auth row, isLoggedIn
returns false, and a request bearing the token through setAuthUser and the
authentication gate receives status 401. -/
theorem revocation_correctness :
    ∀ (verify : Str → Except Str Principal) (store : AuthState) (t : Str),
      isLoggedIn (logoutUser store t) t = false ∧
      authenticateToken (setAuthUser verify (logoutUser store t) (some t)) =
        Except.error 401 := by
  intro verify store t
  refine ⟨isLoggedIn_logoutUser store t, ?_⟩
  unfold setAuthUser
  simp [isLoggedIn_logoutUser store t, authenticateToken]

/-- C3: the authorization middleware never itself produces a user-visible
error: its result type is an optional principal, and a missing token, an
inactive token, and a failed verification each yield the absent principal
with the request continuing; the separate authenticateToken gate returns 401
exactly when no principal is attached. -/
theorem authorization_middleware_no_error :
    (∀ (verify : Str → Except Str Principal) (store : AuthState),
      setAuthUser verify store none = none) ∧
    (∀ (verify : Str → Except Str Principal) (store : AuthState) (t : Str),
      isLoggedIn store t = false → setAuthUser verify store (some t) = none) ∧
    (∀ (verify : Str → Except Str Principal) (store : AuthState) (t e : Str),
      verify t = Except.error e → setAuthUser verify store (some t) = none) ∧
    (∀ u : Option Principal,
      authenticateToken u = Except.error 401 ↔ u = none) := by
  refine ⟨fun _ _ => rfl, ?_, ?_, ?_⟩
  · intro verify store t h
    unfold setAuthUser
    simp [h]
  · intro verify store t e h
    unfold setAuthUser
    by_cases hl : isLoggedIn store t = true <;> simp [hl, h]
  · intro u
    cases u <;> simp [authenticateToken]

theorem authorization_middleware_no_error_witness :
    setAuthUser (fun _ => Except.error ['e']) [] (some ['t']) = none :=
  authorization_middleware_no_error.2.1 (fun _ => Except.error ['e']) []
    ['t'] (by decide)

/-- C5: a login attempt where no user with the given email exists and one
where the email exists but the password comparison fails produce the
identical error, status 404 with message unknown user, so the two failure
causes are indistinguishable to the caller. -/
theorem login_error_collapse :
    ∀ (compare : Str → Str → Bool) (users : List StoredUser) (email pw : Str),
      (users.find? (fun u => decide (u.email = email)) = none →
        getUser compare users email pw = Except.error unknownUserError) ∧
      (∀ u, users.find? (fun v => decide (v.email = email)) = some u →
        compare pw u.passwordHash = false →
        getUser compare users email pw = Except.error unknownUserError) ∧
      unknownUserError = (404, "unknown user") := by
  intro compare users email pw
  refine ⟨?_, ?_, rfl⟩
  · intro h
    unfold getUser
    rw [h]
  · intro u hu hc
    unfold getUser
    rw [hu]
    simp [hc]

theorem login_error_collapse_witness :
    getUser (fun _ _ => false) [] ['a'] ['b'] = Except.error unknownUserError :=
  (login_error_collapse (fun _ _ => false) [] ['a'] ['b']).1 rfl

/-- C6: the PUT user permission check succeeds exactly when the principal id
equals the target user id or the principal has the Admin role; when it fails
the response is status 403 with message unauthorized and the user table is
left unchanged. -/
theorem self_or_admin_policy :
    ∀ (hash : Str → Str) (p : Principal) (targetUserId : Nat)
      (users : List StoredUser) (name email pw : Str),
      (isSelfOrAdmin p targetUserId = true ↔
        (p.id = targetUserId ∨ Role.Admin ∈ p.roles)) ∧
      (isSelfOrAdmin p targetUserId = true →
        updateUserRoute hash p targetUserId users name email pw =
          (Except.ok (), updateUser hash users targetUserId name email pw)) ∧
      (isSelfOrAdmin p targetUserId = false →
        updateUserRoute hash p targetUserId users name email pw =
          (Except.error (403, "unauthorized"), users)) := by
  intro hash p target users name email pw
  refine ⟨?_, ?_, ?_⟩
  · unfold isSelfOrAdmin hasRole
    simp [List.any_eq_true]
  · intro h
    unfold updateUserRoute
    rw [if_pos h]
  · intro h
    unfold updateUserRoute
    rw [if_neg (by simp [h])]

theorem self_or_admin_policy_witness :
    updateUserRoute (fun s => s) (Principal.mk 1 [Role.Diner]) 2 [] [] [] [] =
      (Except.error (403, "unauthorized"), []) :=
  (self_or_admin_policy (fun s => s) (Principal.mk 1 [Role.Diner]) 2
    [] [] [] []).2.2 (by decide)

/-- C7: the DELETE franchise route enforces no authentication or permission
check: for every requester, including one carrying no principal, the route
behaves identically, calls DB.deleteFranchise, and on success answers status
200 with message franchise deleted. -/
theorem delete_franchise_route_no_auth :
    ∀ (user : Option Principal) (fail : Option TxStep) (db : FranchiseDB)
      (fid : Nat),
      deleteFranchiseRoute user fail db fid =
        deleteFranchiseRoute none fail db fid ∧
      (∀ db2, deleteFranchise fail db fid = Except.ok db2 →
        deleteFranchiseRoute user fail db fid =
          (Except.ok (200, "franchise deleted"), db2)) := by
  intro user fail db fid
  refine ⟨rfl, ?_⟩
  intro db2 h
  unfold deleteFranchiseRoute
  rw [h]

theorem delete_franchise_route_no_auth_witness :
    deleteFranchiseRoute (some (Principal.mk 7 [])) none
      (FranchiseDB.mk [] [] []) 3 =
      (Except.ok (200, "franchise deleted"), FranchiseDB.mk [] [] []) :=
  (delete_franchise_route_no_auth (some (Principal.mk 7 [])) none
    (FranchiseDB.mk [] [] []) 3).2 (FranchiseDB.mk [] [] []) rfl

theorem all_filter_self {α : Type} (p : α → Bool) (l : List α) :
    (l.filter p).all p = true := by
  rw [List.all_eq_true]
  intro x hx
  exact (List.mem_filter.mp hx).2

/-- C8: DB.deleteFranchise deletes the store rows, the role-assignment rows
and the franchise row of the franchise inside one transaction: on success no
row of any of the three kinds remains for the franchise id, and on a failure
at any statement the single error is status 500 with message unable to
delete franchise, and the route leaves the state unchanged (no partial
deletion remains). -/
theorem delete_franchise_atomicity :
    ∀ (fail : Option TxStep) (db : FranchiseDB) (fid : Nat),
      (∀ db2, deleteFranchise fail db fid = Except.ok db2 →
        db2.stores.all (fun s => decide (s.2 ≠ fid)) = true ∧
        db2.userRoles.all (fun r => decide (r.objectId ≠ fid)) = true ∧
        db2.franchises.all (fun f => decide (f ≠ fid)) = true) ∧
      (∀ e, deleteFranchise fail db fid = Except.error e →
        e = unableToDeleteFranchiseError ∧
        ∀ user, (deleteFranchiseRoute user fail db fid).2 = db) := by
  intro fail db fid
  constructor
  · intro db2 h
    unfold deleteFranchise at h
    by_cases h1 : fail = some TxStep.deleteStores
    · rw [if_pos h1] at h
      cases h
    · rw [if_neg h1] at h
      by_cases h2 : fail = some TxStep.deleteRoles
      · rw [if_pos h2] at h
        cases h
      · rw [if_neg h2] at h
        by_cases h3 : fail = some TxStep.deleteFranchiseRow
        · rw [if_pos h3] at h
          cases h
        · rw [if_neg h3] at h
          cases h
          refine ⟨?_, ?_, ?_⟩ <;>
            simp [txDeleteFranchiseRow, txDeleteRoles, txDeleteStores,
              all_filter_self]
  · intro e h
    constructor
    · unfold deleteFranchise at h
      by_cases h1 : fail = some TxStep.deleteStores
      · rw [if_pos h1] at h
        cases h
        rfl
      · rw [if_neg h1] at h
        by_cases h2 : fail = some TxStep.deleteRoles
        · rw [if_pos h2] at h
          cases h
          rfl
        · rw [if_neg h2] at h
          by_cases h3 : fail = some TxStep.deleteFranchiseRow
          · rw [if_pos h3] at h
            cases h
            rfl
          · rw [if_neg h3] at h
            cases h
    · intro user
      unfold deleteFranchiseRoute
      rw [h]

theorem delete_franchise_atomicity_witness :
    (deleteFranchiseRoute none (some TxStep.deleteRoles)
      (FranchiseDB.mk [5] [(1, 5)] []) 5).2 = FranchiseDB.mk [5] [(1, 5)] [] :=
  ((delete_franchise_atomicity (some TxStep.deleteRoles)
    (FranchiseDB.mk [5] [(1, 5)] []) 5).2 unableToDeleteFranchiseError
    rfl).2 none

theorem countSig_map_update (store : AuthState) (sig : Str) (uid : Nat) :
    countSig
      (store.map (fun row => if row.1 = sig then (row.1, uid) else row)) sig =
      countSig store sig := by
  unfold countSig
  rw [List.countP_map]
  congr 1
  funext row
  by_cases h : row.1 = sig <;> simp [Function.comp, h]

theorem countSig_pos_iff_any (store : AuthState) (sig : Str) :
    store.any (fun row => decide (row.1 = sig)) = true ↔
      0 < countSig store sig := by
  unfold countSig
  rw [List.any_eq_true, List.countP_pos_iff]

theorem countSig_loginUser (store : AuthState) (uid : Nat) (tok : Str)
    (h : countSig store (getTokenSignature tok) ≤ 1) :
    countSig (loginUser store uid tok) (getTokenSignature tok) = 1 := by
  unfold loginUser
  by_cases ha :
      store.any (fun row => decide (row.1 = getTokenSignature tok)) = true
  · rw [if_pos ha, countSig_map_update]
    have hpos := (countSig_pos_iff_any store (getTokenSignature tok)).mp ha
    omega
  · rw [if_neg ha]
    have hz : countSig store (getTokenSignature tok) = 0 := by
      by_contra hc
      exact ha ((countSig_pos_iff_any store (getTokenSignature tok)).mpr
        (Nat.pos_of_ne_zero hc))
    unfold countSig at hz ⊢
    simp [List.countP_cons, hz]

/-- C4: activating (loginUser) the same token twice leaves exactly one
active-session row for its signature — upsert semantics, no error on the
second call — and isLoggedIn returns true after either call; the hypothesis
is the primary-key invariant that the auth table starts with at most one row
per signature. -/
theorem token_activation_idempotence :
    ∀ (store : AuthState) (uid : Nat) (tok : Str),
      countSig store (getTokenSignature tok) ≤ 1 →
      countSig (loginUser store uid tok) (getTokenSignature tok) = 1 ∧
      countSig (loginUser (loginUser store uid tok) uid tok)
        (getTokenSignature tok) = 1 ∧
      isLoggedIn (loginUser store uid tok) tok = true ∧
      isLoggedIn (loginUser (loginUser store uid tok) uid tok) tok = true := by
  intro store uid tok h
  have h1 := countSig_loginUser store uid tok h
  have h2 := countSig_loginUser (loginUser store uid tok) uid tok (by omega)
  refine ⟨h1, h2, ?_, ?_⟩
  · unfold isLoggedIn
    exact (countSig_pos_iff_any _ _).mpr (by omega)
  · unfold isLoggedIn
    exact (countSig_pos_iff_any _ _).mpr (by omega)

theorem token_activation_idempotence_witness :
    isLoggedIn (loginUser (loginUser [] 4 ['a', '.', 'b', '.', 'c']) 4
      ['a', '.', 'b', '.', 'c']) ['a', '.', 'b', '.', 'c'] = true :=
  (token_activation_idempotence [] 4 ['a', '.', 'b', '.', 'c']
    (by decide)).2.2.2

theorem foldl_digit_step (l : List Nat) (a : Nat) :
    l.reverse.foldl (fun acc d => acc * 10 + d) a =
      a * 10 ^ l.length + Nat.ofDigits 10 l := by
  induction l generalizing a with
  | nil => simp
  | cons x xs ih =>
    rw [List.reverse_cons, List.foldl_append, ih]
    simp only [List.foldl_cons, List.foldl_nil, Nat.ofDigits_cons,
      List.length_cons, pow_succ]
    ring

theorem jsSingletonArrayToNumber_id (n : Nat) :
    jsSingletonArrayToNumber n = n := by
  unfold jsSingletonArrayToNumber jsNumberToDigits jsDigitsToNumber
  by_cases h : n = 0
  · simp [h]
  · rw [if_neg h, foldl_digit_step]
    simp [Nat.ofDigits_digits]

/-- C10: for every page number at least 1 and per-page limit, getOffset
evaluates to exactly the zero-based page times the limit, even though the
implementation multiplies by a single-element array literal that JavaScript
coerces through its string rendering back to the number; in particular the
first page gives offset zero. -/
theorem getOffset_pagination :
    ∀ (p n : Nat), 1 ≤ p → getOffset p n = (p - 1) * n := by
  intro p n _
  unfold getOffset
  rw [jsSingletonArrayToNumber_id]

theorem getOffset_pagination_witness :
    getOffset 1 10 = (1 - 1) * 10 ∧ getOffset 5 20 = (5 - 1) * 20 :=
  ⟨getOffset_pagination 1 10 (by decide), getOffset_pagination 5 20 (by decide)⟩
